import Mathlib

/-!
# array-sorter: the Python binding layer (`src/python/bindings.cpp`)

A shallow embedding of the sorting entry points `sort` (`sort_in_place`) and
`sorted` (`sorted_copy`) together with the helpers they are built from.

* A `std::vector<double>` is a `List α`.  The sorter only needs a decidable `<` on
  `α` (the `operator<` that `std::sort` compares with), so the results that do not
  speak of order hold for every such type, the doubles with NaN included.  The
  ordering results take `α` linearly ordered: the doubles that are not NaN, compared
  by value (`-0.0` and `0.0` are one value, as `operator==` on doubles has it).
  The coercion functions need nothing of `α`.
* A Python object is described by what the C API calls used in the bindings
  report about it (`PyObject`), an exception by where it was thrown
  (`CppException`).
* Functions that mutate their argument return the argument's new state.
-/

namespace ArraySorter

/-! ## The comparison sorter (`sort.h`) -/

/-- Modelled from the spec: the body of `sort_array` (declared in `sort.h`, defined in a
`sort.cpp` that is not part of the sources at hand).  The header documents it as
"Sort an array of numbers in-place using std::sort" and the spec as a comparison sort
that "reorders it ascending in place".  It compares with `<` only, as `std::sort` does.
The vector is passed by reference; the function here returns its new contents. -/
def sort_array {α : Type} [LT α] [DecidableRel (fun a b : α => a < b)] (arr : List α) :
    List α :=
  arr.insertionSort (fun a b => ¬ b < a)

/-- Function `sort_vector` (bindings.cpp 64-70): sort ascending, then `std::reverse` when
the flag is set. -/
def sort_vector {α : Type} [LT α] [DecidableRel (fun a b : α => a < b)] (values : List α)
    (reverse : Bool) : List α :=
  let values := sort_array values
  if reverse then values.reverse else values

/-! ## Exceptions -/

/-- A Python exception raised by Python code that the bindings call (it reaches C++ as
`py::error_already_set`): its type's name and what `error.matches(PyExc_TypeError)` and
`error.matches(PyExc_RuntimeError)` answer for it. -/
structure PythonError where
  type_name : String
  matches_TypeError : Bool
  matches_RuntimeError : Bool
deriving DecidableEq, Repr

/-- What a function of the bindings can throw.  `type_error` is `py::type_error` (the
caller sees a `TypeError`), `runtime_error` is `std::runtime_error` (the caller sees a
`RuntimeError`), `error_already_set` carries a Python exception raised by a callee.  Only
the last one is caught by `catch (const py::error_already_set&)`. -/
inductive CppException where
  | type_error (what : String)
  | runtime_error (what : String)
  | error_already_set (error : PythonError)
deriving DecidableEq, Repr

/-! ## Python objects -/

/-- An element of a collection: the `__name__` of its type (`type_name`, bindings.cpp
24-26) and the outcome of `py::cast<double>` on it, `none` when the cast throws
`py::cast_error`. -/
structure PyItem (α : Type) where
  type_name : String
  as_double : Option α
deriving DecidableEq, Repr

/-- The Python float holding `x`. -/
def py_float {α : Type} (x : α) : PyItem α := ⟨"float", some x⟩

/-- The casts `static_cast<double>` on a `float` and `static_cast<float>` on a `double`;
`β` is the type of 32-bit floats. -/
class FloatCast (α β : Type) where
  to_double : β → α
  to_float : α → β

/-- The memory region behind `view.buf`, by the type of the elements it holds. -/
inductive Memory (α β : Type) where
  | doubles (cells : List α)
  | floats (cells : List β)
  | raw (bytes : List Nat)
deriving DecidableEq, Repr

/-- The fields of `Py_buffer` that the bindings read. `format = none` is a null pointer. -/
structure Py_buffer (α β : Type) where
  buf : Memory α β
  len : Int
  itemsize : Int
  format : Option String
  ndim : Int
deriving DecidableEq, Repr

/-- What the buffer protocol answers for an object: `unsupported` when
`PyObject_CheckBuffer` is false, `unavailable` when
`PyObject_GetBuffer(.., PyBUF_WRITABLE | PyBUF_FORMAT)` fails, and otherwise the view
that it fills in. -/
inductive BufferSupport (α β : Type) where
  | unsupported
  | unavailable
  | view (v : Py_buffer α β)
deriving DecidableEq, Repr

/-- A Python object, as seen through the C API calls of the bindings.
`items` are the elements that indexing (`seq[i]`, `i < len`) and iteration produce, so
`py::len` is `items.length` when the elements are read; reading the length or an element
does not raise.
`setitem_raises i v` is the exception that `__setitem__(i, v)` raises, `none` when the
assignment is carried out, which stores the float `v` at index `i`.
`raise_leaves i v` maps the elements to what a raising `__setitem__(i, v)` leaves of
them: the same elements by default, but the call is arbitrary Python code and may have
stored before it raised.
`resized` is the length `py::len` answers at write-back time when the sequence was
resized while its elements were converted (by a `__float__` that appends to it, or from
outside), `none` when the length is still that of `items`.
`storage_items` reads the elements out of the exported storage for an object whose
indexing reads that storage (an `array.array`), `none` otherwise. -/
structure PyObject (α β : Type) where
  unicode_check : Bool
  bytes_check : Bool
  buffer : BufferSupport α β
  sequence_check : Bool
  iterable : Bool
  items : List (PyItem α)
  has_setitem : Bool
  setitem_raises : Nat → α → Option PythonError
  raise_leaves : Nat → α → List (PyItem α) → List (PyItem α) := fun _ _ items => items
  resized : Option Nat := none
  storage_items : Option (Memory α β → List (PyItem α)) := none

/-- A Python `list` with the given elements. -/
def py_list_object {α β : Type} (items : List (PyItem α)) : PyObject α β where
  unicode_check := false
  bytes_check := false
  buffer := .unsupported
  sequence_check := true
  iterable := true
  items := items
  has_setitem := true
  setitem_raises := fun i _ =>
    if i < items.length then none else some ⟨"IndexError", false, false⟩

/-- A Python `tuple` with the given elements: indexable, iterable, no `__setitem__`. -/
def py_tuple_object {α β : Type} (items : List (PyItem α)) : PyObject α β where
  unicode_check := false
  bytes_check := false
  buffer := .unsupported
  sequence_check := true
  iterable := true
  items := items
  has_setitem := false
  setitem_raises := fun _ _ => some ⟨"TypeError", true, false⟩

/-- A Python `str`: a sequence whose elements are one-character strings; it has no
buffer protocol and no `__setitem__`. -/
def py_str {α β : Type} (chars : List Char) : PyObject α β where
  unicode_check := true
  bytes_check := false
  buffer := .unsupported
  sequence_check := true
  iterable := true
  items := chars.map fun _ => ⟨"str", none⟩
  has_setitem := false
  setitem_raises := fun _ _ => some ⟨"TypeError", true, false⟩

/-- A Python `bytes`: a sequence whose elements are the integers 0..255; it exports a
read-only buffer, so a writable view cannot be acquired; no `__setitem__`. -/
def py_bytes {α β : Type} [NatCast α] (data : List (Fin 256)) : PyObject α β where
  unicode_check := false
  bytes_check := true
  buffer := .unavailable
  sequence_check := true
  iterable := true
  items := data.map fun b => ⟨"int", some ((b.val : Nat) : α)⟩
  has_setitem := false
  setitem_raises := fun _ _ => some ⟨"TypeError", true, false⟩

/-- The state of `seq` after a successful `seq.__setitem__(i, v)`. -/
def PyObject.assign {α β : Type} (seq : PyObject α β) (i : Nat) (v : α) : PyObject α β :=
  { seq with items := seq.items.set i (py_float v) }

/-- The length `py::len(seq)` answers when `write_back` asks for it (bindings.cpp 49).
Only a mutable sequence changes under the call: `resized` is read for an object with
`__setitem__`, and an object without it (a tuple, a string) keeps the length of its
elements. -/
def PyObject.len_at_write_back {α β : Type} (seq : PyObject α β) : Nat :=
  if seq.has_setitem then seq.resized.getD seq.items.length else seq.items.length

/-- The elements indexing produces once the exported storage holds `buf`. -/
def PyObject.items_over {α β : Type} (arr : PyObject α β) (buf : Memory α β) :
    List (PyItem α) :=
  match arr.storage_items with
  | some read => read buf
  | none => arr.items

/-- Function `is_text_type` (bindings.cpp 20-22). -/
def is_text_type {α β : Type} (object : PyObject α β) : Bool :=
  object.unicode_check || object.bytes_check

/-! ## Numeric coercion and write-back -/

/-- The diagnostic that `to_numeric_vector` streams together (bindings.cpp 38-40). -/
def coercion_message (i : Nat) (type_name : String) : String :=
  "array_sorter.sort expects numeric values; index " ++ toString i ++
    " is of type '" ++ type_name ++ "'"

/-- The loop of `to_numeric_vector` (bindings.cpp 33-43), entered at index `i` with
`values` collected so far; the list argument holds the elements `seq[i], seq[i+1], ..`
that are still to be read. -/
def to_numeric_vector_loop {α : Type} (i : Nat) (values : List α) :
    List (PyItem α) → Except CppException (List α)
  | [] => .ok values
  | item :: rest =>
    match item.as_double with
    | some x => to_numeric_vector_loop (i + 1) (values ++ [x]) rest
    | none => .error (.type_error (coercion_message i item.type_name))

/-- Function `to_numeric_vector` (bindings.cpp 28-46) on the elements of the sequence. -/
def to_numeric_vector {α : Type} (seq : List (PyItem α)) : Except CppException (List α) :=
  to_numeric_vector_loop 0 [] seq

/-- The assignment loop of `write_back` (bindings.cpp 59-61), entered at index `i` with
the values `values[i], values[i+1], ..` still to be written.  It returns the state of
the sequence when the loop is left and the exception that left it, if any. -/
def write_back_loop {α β : Type} (seq : PyObject α β) (i : Nat) :
    List α → PyObject α β × Option CppException
  | [] => (seq, none)
  | v :: rest =>
    match seq.setitem_raises i v with
    | some error =>
      ({ seq with items := seq.raise_leaves i v seq.items }, some (.error_already_set error))
    | none => write_back_loop (seq.assign i v) (i + 1) rest

/-- Function `write_back` (bindings.cpp 48-62). -/
def write_back {α β : Type} (seq : PyObject α β) (values : List α) :
    PyObject α β × Option CppException :=
  let length := seq.len_at_write_back
  if values.length ≠ length then
    (seq, some (.runtime_error "sequence length changed while sorting"))
  else if !seq.has_setitem then
    (seq, some (.type_error "sequence does not support item assignment"))
  else
    write_back_loop seq 0 values

/-! ## The buffer path -/

/-- The enumeration `BufferPrecision` (bindings.cpp 14-18). -/
inductive BufferPrecision where
  | kNone
  | kFloat32
  | kFloat64
deriving DecidableEq, Repr

/-- The characters that `normalize_format` skips (bindings.cpp 77). -/
def is_marker (c : Char) : Bool :=
  c == '@' || c == '<' || c == '>' || c == '!' || c == '='

/-- Function `normalize_format` (bindings.cpp 72-81). -/
def normalize_format (raw_format : Option String) : String :=
  match raw_format with
  | none => ""
  | some raw => String.mk (raw.data.dropWhile is_marker)

/-- Function `deduce_precision` (bindings.cpp 83-94); `sizeof(double)` is 8 and
`sizeof(float)` is 4. -/
def deduce_precision {α β : Type} (view : Py_buffer α β) : BufferPrecision :=
  let format := normalize_format view.format
  if view.itemsize = 8 ∧
      (format = "d" ∨ format = "f8" ∨ format = "float64" ∨ format = "double") then
    .kFloat64
  else if view.itemsize = 4 ∧ (format = "f" ∨ format = "f4" ∨ format = "float32") then
    .kFloat32
  else
    .kNone

/-- The cast `static_cast<size_t>` on a `Py_ssize_t` (64 bits). -/
def to_size_t (n : Int) : Nat := (n % 2 ^ 64).toNat

/-- The element count of bindings.cpp 126. -/
def element_count {α β : Type} (view : Py_buffer α β) : Nat :=
  to_size_t view.len / to_size_t view.itemsize

/-- Read `count` doubles from the start of a region (`std::memcpy` out of `view.buf`,
bindings.cpp 129).  The region is taken to hold at least `count` doubles; reading
anything else is undefined in C++ and yields no element here. -/
def Memory.read_doubles {α β : Type} (count : Nat) : Memory α β → List α
  | .doubles cells => cells.take count
  | _ => []

/-- Read `src[0], .., src[count-1]` from a region of floats (bindings.cpp 131-134). -/
def Memory.read_floats {α β : Type} (count : Nat) : Memory α β → List β
  | .floats cells => cells.take count
  | _ => []

/-- The region after `count` doubles were copied to its start (`std::memcpy` into
`view.buf`, bindings.cpp 140). -/
def Memory.write_doubles {α β : Type} (count : Nat) (values : List α) :
    Memory α β → Memory α β
  | .doubles cells => .doubles (values.take count ++ cells.drop count)
  | m => m

/-- The region after `dst[0], .., dst[count-1]` were assigned (bindings.cpp 142-145). -/
def Memory.write_floats {α β : Type} (count : Nat) (values : List β) :
    Memory α β → Memory α β
  | .floats cells => .floats (values.take count ++ cells.drop count)
  | m => m

/-- Function `try_sort_via_buffer` (bindings.cpp 96-149): the returned flag and the state
of `arr` afterwards, or the exception thrown.  Every `throw` precedes the first write.
Copy-out rewrites the storage, and with it what indexing reads there. -/
def try_sort_via_buffer {α β : Type} [LT α] [DecidableRel (fun a b : α => a < b)]
    [FloatCast α β]
    (arr : PyObject α β) (reverse : Bool) : Except CppException (Bool × PyObject α β) :=
  match arr.buffer with
  | .unsupported => .ok (false, arr)
  | .unavailable =>
    .error (.type_error "array_sorter.sort requires a writable numeric buffer")
  | .view view =>
    if view.ndim ≠ 1 then
      .error (.type_error "array_sorter.sort only supports one-dimensional buffers")
    else
      let precision := deduce_precision view
      if precision = .kNone then
        .ok (false, arr)
      else
        let count := element_count view
        let values :=
          if precision = .kFloat64 then view.buf.read_doubles count
          else (view.buf.read_floats count).map FloatCast.to_double
        let values := sort_vector values reverse
        let buf :=
          if precision = .kFloat64 then view.buf.write_doubles count values
          else view.buf.write_floats count (values.map FloatCast.to_float)
        .ok (true, { arr with
          buffer := .view { view with buf := buf }, items := arr.items_over buf })

/-! ## Entry points -/

/-- The sequence path of `sort_in_place` (bindings.cpp 158-176), taken when
`try_sort_via_buffer` has returned false. -/
def sort_via_sequence {α β : Type} [LT α] [DecidableRel (fun a b : α => a < b)]
    (arr : PyObject α β) (reverse : Bool) :
    PyObject α β × Option CppException :=
  if !arr.sequence_check || is_text_type arr then
    (arr, some (.type_error
      "array_sorter.sort expects a mutable sequence (for example, a list)"))
  else
    match to_numeric_vector arr.items with
    | .error e => (arr, some e)
    | .ok values =>
      let values := sort_vector values reverse
      match write_back arr values with
      | (arr, some (.error_already_set error)) =>
        if error.matches_TypeError || error.matches_RuntimeError then
          (arr, some (.type_error
            "array_sorter.sort requires a sequence that supports item assignment"))
        else
          (arr, some (.error_already_set error))
      | outcome => outcome

/-- Function `sort_in_place` (bindings.cpp 153-177), exported as `sort`: the state of `arr`
when the call is over and the exception it ended with, `none` for a normal return. -/
def sort_in_place {α β : Type} [LT α] [DecidableRel (fun a b : α => a < b)]
    [FloatCast α β]
    (arr : PyObject α β) (reverse : Bool) : PyObject α β × Option CppException :=
  match try_sort_via_buffer arr reverse with
  | .error e => (arr, some e)
  | .ok (true, arr) => (arr, none)
  | .ok (false, arr) => sort_via_sequence arr reverse

/-- The snapshot `py::list(iterable)` (bindings.cpp 180): the elements the iteration
produces, or the `TypeError` Python raises for an object that is not iterable. -/
def py_list {α β : Type} (iterable : PyObject α β) : Except CppException (List (PyItem α)) :=
  if iterable.iterable then .ok iterable.items
  else .error (.error_already_set ⟨"TypeError", true, false⟩)

/-- Function `sorted_copy` (bindings.cpp 179-189), exported as `sorted`: the values of the
Python floats in the returned list, or the exception thrown.  The argument is not
written to. -/
def sorted_copy {α β : Type} [LT α] [DecidableRel (fun a b : α => a < b)]
    (iterable : PyObject α β) (reverse : Bool) :
    Except CppException (List α) :=
  match py_list iterable with
  | .error e => .error e
  | .ok snapshot =>
    match to_numeric_vector snapshot with
    | .error e => .error e
    | .ok values => .ok (sort_vector values reverse)

/-- The `try` block of `sort_in_place` (bindings.cpp 168-176) on its own, for a sequence
and the values to be written to it: `write_back`, with the handler for
`py::error_already_set`.  The function `sort_via_sequence` runs the same code inline. -/
def write_back_caught {α β : Type} (sequence : PyObject α β) (values : List α) :
    PyObject α β × Option CppException :=
  match write_back sequence values with
  | (sequence, some (.error_already_set error)) =>
    if error.matches_TypeError || error.matches_RuntimeError then
      (sequence, some (.type_error
        "array_sorter.sort requires a sequence that supports item assignment"))
    else
      (sequence, some (.error_already_set error))
  | outcome => outcome

/-- The width in bytes of one element as the copy loops of `try_sort_via_buffer` address
it: `sizeof(double)` in the two `std::memcpy` calls (bindings.cpp 129, 140) and
`sizeof(float)`, the stride of `src[i]` and `dst[i]` (bindings.cpp 131-145).  Nothing is
copied for `kNone`. -/
def copy_width : BufferPrecision → Nat
  | .kFloat64 => 8
  | .kFloat32 => 4
  | .kNone => 0

/-! ## Auxiliary definitions used in the statements -/

/-- Whether the buffer path of `sort_in_place` sorts `arr`: a writable view is acquired,
it is one-dimensional and `deduce_precision` recognizes its format (bindings.cpp
97-124). -/
def buffer_path_sorts {α β : Type} (arr : PyObject α β) : Bool :=
  match arr.buffer with
  | .view view => decide (view.ndim = 1) && decide (deduce_precision view ≠ .kNone)
  | _ => false

/-- Exact rational arithmetic read as both float widths, for evaluating the definitions
on concrete inputs: every value is representable, so both casts are the identity. -/
instance instFloatCastRat : FloatCast ℚ ℚ where
  to_double := id
  to_float := id

/-- An `array.array('d', cells)`: a mutable sequence of floats that exports its storage
as a writable one-dimensional buffer of format `"d"`, eight bytes an element; indexing
reads the floats out of that storage. -/
def py_array_double {α β : Type} (cells : List α) : PyObject α β where
  unicode_check := false
  bytes_check := false
  buffer := .view
    { buf := .doubles cells, len := 8 * cells.length, itemsize := 8, format := some "d",
      ndim := 1 }
  sequence_check := true
  iterable := true
  items := cells.map py_float
  has_setitem := true
  setitem_raises := fun i _ =>
    if i < cells.length then none else some ⟨"IndexError", false, false⟩
  storage_items := some fun storage =>
    match storage with
    | .doubles stored => stored.map py_float
    | _ => []

/-- A list `[3.0, 1.0]` of a subclass of `list` whose `__setitem__` accepts index 0 only
and raises `ValueError` for every other index. -/
def first_slot_only : PyObject ℚ ℚ :=
  { (py_list_object [py_float 3, py_float 1] : PyObject ℚ ℚ) with
    setitem_raises := fun i _ => if i = 0 then none else some ⟨"ValueError", false, false⟩ }

/-- An `array.array('i', [2, 1])`: its buffer has the integer format `"i"`, four bytes an
element, and its `__setitem__` raises `TypeError` for a float. -/
def int_array_example : PyObject ℚ ℚ where
  unicode_check := false
  bytes_check := false
  buffer := .view
    { buf := .raw [2, 0, 0, 0, 1, 0, 0, 0], len := 8, itemsize := 4, format := some "i",
      ndim := 1 }
  sequence_check := true
  iterable := true
  items := [⟨"int", some 2⟩, ⟨"int", some 1⟩]
  has_setitem := true
  setitem_raises := fun _ _ => some ⟨"TypeError", true, false⟩

/-- A two-by-two NumPy array of `float64`: its view has two dimensions, and its elements
under indexing are its rows, which do not convert to a number. -/
def matrix_example : PyObject ℚ ℚ where
  unicode_check := false
  bytes_check := false
  buffer := .view
    { buf := .doubles [4, 3, 2, 1], len := 32, itemsize := 8, format := some "d",
      ndim := 2 }
  sequence_check := true
  iterable := true
  items := [⟨"ndarray", none⟩, ⟨"ndarray", none⟩]
  has_setitem := true
  setitem_raises := fun i _ =>
    if i < 2 then none else some ⟨"IndexError", false, false⟩

/-- A view of 27 bytes with the 64-bit format `"<d"`: three doubles and three bytes
that make no fourth. -/
def ragged_view : Py_buffer ℚ ℚ :=
  { buf := .doubles [5, 4, 3], len := 27, itemsize := 8, format := some "<d", ndim := 1 }

/-- A `memoryview` over an `array.array('d', cells)`: a writable one-dimensional buffer of
doubles and a mutable sequence of floats.  A memoryview refuses a request that asks for
the format without the shape, which `PyBUF_WRITABLE | PyBUF_FORMAT` does, so no view is
acquired from it. -/
def py_memoryview_double {α β : Type} (cells : List α) : PyObject α β where
  unicode_check := false
  bytes_check := false
  buffer := .unavailable
  sequence_check := true
  iterable := true
  items := cells.map py_float
  has_setitem := true
  setitem_raises := fun i _ =>
    if i < cells.length then none else some ⟨"IndexError", false, false⟩

/-- A list of two elements, the first an object whose `__float__` answers 3.0 and appends
to the list: two elements are read, and `py::len` answers 3 when `write_back` asks. -/
def grown_list_example : PyObject ℚ ℚ :=
  { (py_list_object [⟨"Grower", some 3⟩, py_float 1] : PyObject ℚ ℚ) with
    resized := some 3 }

/-- A list `[3.0, 1.0]` of a subclass of `list` whose `__setitem__` stores the value and
then raises `ValueError`, at every index. -/
def store_then_raise_example : PyObject ℚ ℚ :=
  { (py_list_object [py_float 3, py_float 1] : PyObject ℚ ℚ) with
    setitem_raises := fun _ _ => some ⟨"ValueError", false, false⟩,
    raise_leaves := fun i v items => items.set i (py_float v) }

/-! ## The comparison sorter and `sort_vector` -/

/-- Adjacent elements of a list sorted by `r` are related by `r`. -/
theorem sorted_adjacent {α : Type} {r : α → α → Prop} {l : List α} (hs : l.Sorted r)
    (i : Nat) (h : i + 1 < l.length) : r (l.get ⟨i, by omega⟩) (l.get ⟨i + 1, h⟩) :=
  List.Sorted.rel_get_of_lt hs (by simp [Fin.lt_def])

section Permutation

variable {α : Type} [LT α] [DecidableRel (fun a b : α => a < b)]

theorem sort_array_perm (arr : List α) : (sort_array arr).Perm arr :=
  List.perm_insertionSort _ arr

theorem sort_array_length (arr : List α) : (sort_array arr).length = arr.length :=
  (sort_array_perm arr).length_eq

theorem sort_vector_perm_input (values : List α) (reverse : Bool) :
    (sort_vector values reverse).Perm values := by
  cases reverse
  · simpa [sort_vector] using sort_array_perm values
  · simpa [sort_vector] using (List.reverse_perm _).trans (sort_array_perm values)

theorem sort_vector_length (values : List α) (reverse : Bool) :
    (sort_vector values reverse).length = values.length :=
  (sort_vector_perm_input values reverse).length_eq

end Permutation

section Sorting

variable {α : Type} [LinearOrder α]

theorem sort_array_sorted (arr : List α) : (sort_array arr).Sorted (· ≤ ·) := by
  haveI : IsTotal α (fun a b => ¬ b < a) := ⟨fun a b => by simpa using le_total a b⟩
  haveI : IsTrans α (fun a b => ¬ b < a) :=
    ⟨fun a b c hab hbc => not_lt.mpr (le_trans (not_lt.mp hab) (not_lt.mp hbc))⟩
  exact (List.sorted_insertionSort (fun a b : α => ¬ b < a) arr).imp not_lt.mp

theorem sort_array_eq_of_perm {a b : List α} (h : a.Perm b) : sort_array a = sort_array b :=
  List.eq_of_perm_of_sorted (((sort_array_perm a).trans h).trans (sort_array_perm b).symm)
    (sort_array_sorted a) (sort_array_sorted b)

theorem sort_array_eq_self {arr : List α} (h : arr.Sorted (· ≤ ·)) : sort_array arr = arr :=
  List.Sorted.insertionSort_eq (List.Pairwise.imp not_lt.mpr h)

theorem sort_vector_ascending (values : List α) :
    (sort_vector values false).Sorted (· ≤ ·) := by
  simpa [sort_vector] using sort_array_sorted values

theorem sort_vector_descending (values : List α) :
    (sort_vector values true).Sorted (· ≥ ·) := by
  have h := sort_array_sorted values
  simp only [sort_vector, if_true]
  exact List.pairwise_reverse.mpr h

/-- C1: for every array `v` of doubles without NaN and either flag,
`sort_vector v reverse` is ordered: with `reverse = false` every adjacent pair satisfies
`result[i] <= result[i+1]`, with `reverse = true` every adjacent pair satisfies
`result[i] >= result[i+1]`. -/
theorem sort_vector_ordered (v : List α) (reverse : Bool) (i : Nat)
    (h : i + 1 < (sort_vector v reverse).length) :
    (reverse = false →
      (sort_vector v reverse).get ⟨i, by omega⟩ ≤
        (sort_vector v reverse).get ⟨i + 1, h⟩) ∧
    (reverse = true →
      (sort_vector v reverse).get ⟨i, by omega⟩ ≥
        (sort_vector v reverse).get ⟨i + 1, h⟩) := by
  constructor
  · intro hr
    subst hr
    exact sorted_adjacent (sort_vector_ascending v) i h
  · intro hr
    subst hr
    exact sorted_adjacent (sort_vector_descending v) i h

theorem sort_vector_ordered_witness :
    (sort_vector [(3 : ℚ), 1, 2] true).get ⟨0, by decide⟩ ≥
      (sort_vector [(3 : ℚ), 1, 2] true).get ⟨1, by decide⟩ :=
  (sort_vector_ordered [(3 : ℚ), 1, 2] true 0 (by decide)).2 rfl

/-- C10: idempotence.  An array that is already in ascending order is left identical by
the sort, and sorting the result of `sort_vector` again with the same flag changes
nothing. -/
theorem sort_vector_idempotent (v : List α) (r : Bool) :
    (v.Sorted (· ≤ ·) → sort_array v = v ∧ sort_vector v false = v) ∧
    sort_vector (sort_vector v r) r = sort_vector v r := by
  refine ⟨fun h => ⟨sort_array_eq_self h, ?_⟩, ?_⟩
  · simpa [sort_vector] using sort_array_eq_self h
  · have hp : sort_array (sort_vector v r) = sort_array v :=
      sort_array_eq_of_perm (sort_vector_perm_input v r)
    cases r <;> simp [sort_vector] at hp ⊢ <;> rw [hp]

theorem sort_vector_idempotent_witness :
    sort_array [(1 : ℚ), 2, 2, 5] = [1, 2, 2, 5] ∧
      sort_vector [(1 : ℚ), 2, 2, 5] false = [1, 2, 2, 5] :=
  (sort_vector_idempotent [(1 : ℚ), 2, 2, 5] false).1 (by decide)

end Sorting

/-! ## Numeric coercion -/

section Coercion

variable {α : Type}

theorem to_numeric_vector_loop_ok (seq : List (PyItem α)) :
    ∀ (vs : List α) (i : Nat) (values : List α),
      seq.map (fun item => item.as_double) = vs.map some →
      to_numeric_vector_loop i values seq = .ok (values ++ vs) := by
  induction seq with
  | nil =>
    intro vs i values h
    cases vs with
    | nil => simp [to_numeric_vector_loop]
    | cons x xs => simp at h
  | cons item rest ih =>
    intro vs i values h
    cases vs with
    | nil => simp at h
    | cons x xs =>
      simp only [List.map_cons, List.cons.injEq] at h
      simp only [to_numeric_vector_loop, h.1]
      rw [ih xs (i + 1) (values ++ [x]) h.2]
      simp

theorem to_numeric_vector_loop_error (pre : List (PyItem α)) :
    ∀ (bad : PyItem α) (rest : List (PyItem α)) (i : Nat) (values : List α),
      (∀ p ∈ pre, p.as_double ≠ none) → bad.as_double = none →
      to_numeric_vector_loop i values (pre ++ bad :: rest) =
        .error (.type_error (coercion_message (i + pre.length) bad.type_name)) := by
  induction pre with
  | nil =>
    intro bad rest i values _ hbad
    simp [to_numeric_vector_loop, hbad]
  | cons p ps ih =>
    intro bad rest i values hpre hbad
    have hp : p.as_double ≠ none := hpre p (by simp)
    obtain ⟨x, hx⟩ := Option.ne_none_iff_exists'.mp hp
    have hrec := ih bad rest (i + 1) (values ++ [x]) (fun q hq => hpre q (by simp [hq])) hbad
    simp only [List.cons_append, to_numeric_vector_loop, hx, List.length_cons]
    exact hrec.trans (by rw [Nat.add_assoc, Nat.add_comm 1])

/-- Every element convertible: the values, in order. -/
theorem numeric_values_exist (seq : List (PyItem α))
    (h : ∀ item ∈ seq, item.as_double ≠ none) :
    ∃ vs : List α, seq.map (fun item => item.as_double) = vs.map some := by
  induction seq with
  | nil => exact ⟨[], rfl⟩
  | cons item rest ih =>
    obtain ⟨vs, hvs⟩ := ih (fun q hq => h q (by simp [hq]))
    obtain ⟨x, hx⟩ := Option.ne_none_iff_exists'.mp (h item (by simp))
    exact ⟨x :: vs, by simp [hx, hvs]⟩

/-- A list with an element that is not convertible splits at the first such element. -/
theorem first_non_numeric (seq : List (PyItem α))
    (h : ∃ item ∈ seq, item.as_double = none) :
    ∃ pre bad rest, seq = pre ++ bad :: rest ∧ (∀ p ∈ pre, p.as_double ≠ none) ∧
      bad.as_double = none := by
  induction seq with
  | nil => simp at h
  | cons item rest ih =>
    by_cases hi : item.as_double = none
    · exact ⟨[], item, rest, rfl, by simp, hi⟩
    · have h2 : ∃ q ∈ rest, q.as_double = none := by
        obtain ⟨q, hq, hqn⟩ := h
        rcases List.mem_cons.mp hq with rfl | hq
        · exact absurd hqn hi
        · exact ⟨q, hq, hqn⟩
      obtain ⟨pre, bad, rest2, hs, hpre, hbad⟩ := ih h2
      refine ⟨item :: pre, bad, rest2, by simp [hs], ?_, hbad⟩
      intro p hp
      rcases List.mem_cons.mp hp with rfl | hp
      · exact hi
      · exact hpre p hp

/-- C3: `to_numeric_vector s` fails exactly when some element of `s` is not convertible
to a number.  The failure is then a type error naming the least index of such an element
and that element's type name, whatever follows that element (nothing after it is
inspected) and with no array returned; when every element is convertible the result is
the array of the converted values, same length and same order. -/
theorem to_numeric_vector_spec (s : List (PyItem α)) :
    ((∃ e, to_numeric_vector s = .error e) ↔ ∃ item ∈ s, item.as_double = none) ∧
    (∀ pre bad rest, s = pre ++ bad :: rest → (∀ p ∈ pre, p.as_double ≠ none) →
      bad.as_double = none →
      ∀ rest2, to_numeric_vector (pre ++ bad :: rest2) =
        .error (.type_error (coercion_message pre.length bad.type_name))) ∧
    ((∀ item ∈ s, item.as_double ≠ none) →
      ∃ vs : List α, to_numeric_vector s = .ok vs ∧ vs.length = s.length ∧
        s.map (fun item => item.as_double) = vs.map some) := by
  have herr : ∀ (pre : List (PyItem α)) (bad : PyItem α) (rest2 : List (PyItem α)),
      (∀ p ∈ pre, p.as_double ≠ none) → bad.as_double = none →
      to_numeric_vector (pre ++ bad :: rest2) =
        .error (.type_error (coercion_message pre.length bad.type_name)) := by
    intro pre bad rest2 hpre hbad
    simpa [to_numeric_vector] using to_numeric_vector_loop_error pre bad rest2 0 [] hpre hbad
  have hok : (∀ item ∈ s, item.as_double ≠ none) →
      ∃ vs : List α, to_numeric_vector s = .ok vs ∧ vs.length = s.length ∧
        s.map (fun item => item.as_double) = vs.map some := by
    intro hall
    obtain ⟨vs, hvs⟩ := numeric_values_exist s hall
    refine ⟨vs, ?_, ?_, hvs⟩
    · simpa [to_numeric_vector] using to_numeric_vector_loop_ok s vs 0 [] hvs
    · simpa using (congrArg List.length hvs).symm
  refine ⟨⟨?_, ?_⟩, ?_, hok⟩
  · rintro ⟨e, he⟩
    by_contra hno
    push_neg at hno
    obtain ⟨vs, hvs, _⟩ := hok hno
    rw [hvs] at he
    cases he
  · intro hex
    obtain ⟨pre, bad, rest, hs, hpre, hbad⟩ := first_non_numeric s hex
    exact ⟨_, hs ▸ herr pre bad rest hpre hbad⟩
  · intro pre bad rest _ hpre hbad rest2
    exact herr pre bad rest2 hpre hbad

theorem to_numeric_vector_spec_witness :
    to_numeric_vector [(⟨"int", some 3⟩ : PyItem ℚ), ⟨"str", none⟩, ⟨"int", some 1⟩] =
      .error (.type_error "array_sorter.sort expects numeric values; index 1 is of type 'str'") :=
  (to_numeric_vector_spec [(⟨"int", some 3⟩ : PyItem ℚ), ⟨"str", none⟩, ⟨"int", some 1⟩]).2.1
    [⟨"int", some 3⟩] ⟨"str", none⟩ [⟨"int", some 1⟩] rfl (by decide) rfl [⟨"int", some 1⟩]

end Coercion

/-! ## Write-back -/

section WriteBack

variable {α β : Type}

/-- An object without `__setitem__` keeps the length of its elements. -/
theorem len_at_write_back_of_no_setitem (seq : PyObject α β) (hset : seq.has_setitem = false) :
    seq.len_at_write_back = seq.items.length := by
  simp [PyObject.len_at_write_back, hset]

/-- The loop of `write_back`, entered with `done` already behind the cursor and `todo`
ahead of it: `k` assignments are carried out, and the loop is left either at its end,
with every value written, or by the exception that assignment number `k` raises, with
the first `k` values written, the elements from `k` on the old ones, and on top of that
what the raising assignment did. -/
theorem write_back_loop_spec (values : List α) :
    ∀ (seq : PyObject α β) (done todo : List (PyItem α)),
      seq.items = done ++ todo → values.length ≤ todo.length →
      ∃ k, k ≤ values.length ∧
        (∀ j v, j < k → values[j]? = some v →
          seq.setitem_raises (done.length + j) v = none) ∧
        ((k = values.length ∧
            write_back_loop seq done.length values =
              ({ seq with items := done ++ (values.map py_float ++ todo.drop k) }, none)) ∨
          (∃ v err, values[k]? = some v ∧
            seq.setitem_raises (done.length + k) v = some err ∧
            write_back_loop seq done.length values =
              ({ seq with
                  items := seq.raise_leaves (done.length + k) v
                    (done ++ ((values.take k).map py_float ++ todo.drop k)) },
                some (.error_already_set err)))) := by
  induction values with
  | nil =>
    intro seq done todo hitems _
    refine ⟨0, le_refl _, ?_, Or.inl ⟨rfl, ?_⟩⟩
    · intro j v hj
      omega
    · simp [write_back_loop, ← hitems]
  | cons v rest ih =>
    intro seq done todo hitems hlen
    cases todo with
    | nil => simp at hlen
    | cons t todo2 =>
      cases hraise : seq.setitem_raises done.length v with
      | some err =>
        refine ⟨0, Nat.zero_le _, ?_, Or.inr ⟨v, err, by simp, by simpa using hraise, ?_⟩⟩
        · intro j w hj
          omega
        · simp [write_back_loop, hraise, ← hitems]
      | none =>
        have hassign : (seq.assign done.length v).items = (done ++ [py_float v]) ++ todo2 := by
          simp [PyObject.assign, hitems]
        have hlen2 : rest.length ≤ todo2.length := by simpa using hlen
        obtain ⟨k, hk, hbefore, hend⟩ :=
          ih (seq.assign done.length v) (done ++ [py_float v]) todo2 hassign hlen2
        have hloop : write_back_loop seq done.length (v :: rest) =
            write_back_loop (seq.assign done.length v) (done ++ [py_float v]).length rest := by
          simp [write_back_loop, hraise]
        refine ⟨k + 1, by simpa using hk, ?_, ?_⟩
        · intro j w hj hw
          cases j with
          | zero =>
            simp at hw
            subst hw
            simpa using hraise
          | succ j =>
            have := hbefore j w (by omega) (by simpa using hw)
            simpa [PyObject.assign, Nat.add_assoc, Nat.add_comm 1] using this
        · rcases hend with ⟨hk2, hstate⟩ | ⟨w, err, hw, herr, hstate⟩
          · refine Or.inl ⟨by simp [hk2], ?_⟩
            rw [hloop, hstate]
            simp [PyObject.assign]
          · refine Or.inr ⟨w, err, by simpa using hw, ?_, ?_⟩
            · simpa [PyObject.assign, Nat.add_assoc, Nat.add_comm 1] using herr
            · rw [hloop, hstate]
              simp [PyObject.assign, Nat.add_assoc, Nat.add_comm 1]

/-- Past its two checks `write_back` is the assignment loop: see `write_back_loop_spec`
for the reading of `k`. -/
theorem write_back_spec (seq : PyObject α β) (values : List α)
    (hlive : values.length = seq.len_at_write_back)
    (hlen : values.length = seq.items.length) (hset : seq.has_setitem = true) :
    ∃ k, k ≤ values.length ∧
      (∀ j v, j < k → values[j]? = some v → seq.setitem_raises j v = none) ∧
      ((k = values.length ∧
          write_back seq values = ({ seq with items := values.map py_float }, none)) ∨
        (∃ v err, values[k]? = some v ∧ seq.setitem_raises k v = some err ∧
          write_back seq values =
            ({ seq with
                items := seq.raise_leaves k v
                  ((values.take k).map py_float ++ seq.items.drop k) },
              some (.error_already_set err)))) := by
  have hwb : write_back seq values = write_back_loop seq 0 values := by
    simp [write_back, hlive, hset]
  obtain ⟨k, hk, hbefore, hend⟩ :=
    write_back_loop_spec values seq [] seq.items rfl (le_of_eq hlen)
  refine ⟨k, hk, by simpa using hbefore, ?_⟩
  rcases hend with ⟨hkl, hstate⟩ | ⟨v, err, hv, herr, hstate⟩
  · left
    refine ⟨hkl, ?_⟩
    have hdrop : List.drop k seq.items = [] := by
      rw [hkl, hlen]
      exact List.drop_length _
    rw [hwb]
    simpa [hdrop] using hstate
  · right
    refine ⟨v, err, hv, by simpa using herr, ?_⟩
    rw [hwb]
    simpa using hstate

theorem write_back_length_changed (seq : PyObject α β) (values : List α)
    (hlen : values.length ≠ seq.len_at_write_back) :
    write_back seq values =
      (seq, some (.runtime_error "sequence length changed while sorting")) := by
  simp [write_back, hlen]

theorem write_back_no_setitem (seq : PyObject α β) (values : List α)
    (hlen : values.length = seq.items.length) (hset : seq.has_setitem = false) :
    write_back seq values =
      (seq, some (.type_error "sequence does not support item assignment")) := by
  simp [write_back, len_at_write_back_of_no_setitem seq hset, hlen, hset]

/-- When every assignment is carried out, `write_back` replaces the elements by the
values and returns normally. -/
theorem write_back_all_assigned (seq : PyObject α β) (values : List α)
    (hlive : values.length = seq.len_at_write_back)
    (hlen : values.length = seq.items.length) (hset : seq.has_setitem = true)
    (hok : ∀ i v, i < seq.items.length → seq.setitem_raises i v = none) :
    write_back seq values = ({ seq with items := values.map py_float }, none) := by
  obtain ⟨k, hk, _, hend⟩ := write_back_spec seq values hlive hlen hset
  rcases hend with ⟨_, hstate⟩ | ⟨v, err, hv, herr, _⟩
  · exact hstate
  · have hklt : k < values.length := by
      by_contra hge
      rw [List.getElem?_eq_none (by omega)] at hv
      cases hv
    rw [hok k v (by omega)] at herr
    cases herr

/-- An exception of kind `error_already_set` leaves the assignment loop only when some
`__setitem__(i + k, v)` raised it. -/
theorem write_back_loop_error_from_setitem (values : List α) :
    ∀ (seq : PyObject α β) (i : Nat) (err : PythonError),
      (write_back_loop seq i values).2 = some (.error_already_set err) →
      ∃ k v, values[k]? = some v ∧ seq.setitem_raises (i + k) v = some err := by
  induction values with
  | nil =>
    intro seq i err h
    simp [write_back_loop] at h
  | cons v rest ih =>
    intro seq i err h
    cases hraise : seq.setitem_raises i v with
    | some e =>
      simp only [write_back_loop, hraise] at h
      cases h
      exact ⟨0, v, by simp, by simpa using hraise⟩
    | none =>
      simp only [write_back_loop, hraise] at h
      obtain ⟨k, w, hw, herr⟩ := ih (seq.assign i v) (i + 1) err h
      refine ⟨k + 1, w, by simpa using hw, ?_⟩
      simpa [PyObject.assign, Nat.add_assoc, Nat.add_comm 1] using herr

end WriteBack

/-! ## Dispatch -/

/-- The sequence path once validation and coercion have passed: the state is the one
`write_back` leaves, and an exception raised by `__setitem__` is replaced by a type
error when it matches `TypeError` or `RuntimeError`. -/
theorem sort_via_sequence_write_back {α β : Type} [LT α]
    [DecidableRel (fun a b : α => a < b)] (arr : PyObject α β) (reverse : Bool)
    (values : List α)
    (hseq : arr.sequence_check = true) (htext : is_text_type arr = false)
    (hvalues : to_numeric_vector arr.items = .ok values) :
    (sort_via_sequence arr reverse).1 = (write_back arr (sort_vector values reverse)).1 ∧
    ((sort_via_sequence arr reverse).2 = none ↔
      (write_back arr (sort_vector values reverse)).2 = none) := by
  unfold sort_via_sequence
  simp only [hseq, htext, hvalues]
  rcases hwb : write_back arr (sort_vector values reverse) with ⟨a, _ | e⟩
  · simp
  · cases e with
    | type_error what => simp
    | runtime_error what => simp
    | error_already_set error =>
      by_cases hm : (error.matches_TypeError || error.matches_RuntimeError) = true
      · simp [hm]
      · simp [hm]

section Dispatch

variable {α β : Type} [LT α] [DecidableRel (fun a b : α => a < b)] [FloatCast α β]

/-- The buffer path answers "not applicable" only without touching the object. -/
theorem try_sort_via_buffer_false (arr arr2 : PyObject α β) (reverse : Bool)
    (h : try_sort_via_buffer arr reverse = .ok (false, arr2)) : arr2 = arr := by
  unfold try_sort_via_buffer at h
  cases hb : arr.buffer with
  | unsupported =>
    simp only [hb] at h
    cases h
    rfl
  | unavailable =>
    simp only [hb] at h
    cases h
  | view view =>
    simp only [hb] at h
    by_cases hdim : view.ndim = 1
    · by_cases hprec : deduce_precision view = .kNone
      · simp only [hdim, hprec, ne_eq, not_true_eq_false, if_false, if_true] at h
        cases h
        rfl
      · simp [hdim, hprec] at h
    · simp [hdim] at h

/-- Without a sortable buffer, `sort_in_place` either fails in the buffer path with a
type error and the object untouched, or is the sequence path. -/
theorem sort_in_place_no_buffer (arr : PyObject α β) (reverse : Bool)
    (h : buffer_path_sorts arr = false) :
    (∃ what, sort_in_place arr reverse = (arr, some (.type_error what))) ∨
      sort_in_place arr reverse = sort_via_sequence arr reverse := by
  unfold buffer_path_sorts at h
  unfold sort_in_place try_sort_via_buffer
  split at h
  · rename_i view hview
    simp only [hview]
    by_cases hdim : view.ndim = 1
    · have hprec : deduce_precision view = .kNone := by simpa [hdim] using h
      right
      simp [hdim, hprec]
    · left
      refine ⟨"array_sorter.sort only supports one-dimensional buffers", ?_⟩
      simp [hdim]
  · rename_i hnot
    cases hb : arr.buffer with
    | unsupported => right; simp
    | unavailable =>
      left
      refine ⟨"array_sorter.sort requires a writable numeric buffer", ?_⟩
      simp
    | view v => exact absurd hb (hnot v)

/-- C2: for every array `v` and either flag, `sort_vector v reverse` is a permutation of
`v`: same length, and every value occurs as often as in `v`.  For a Python list whose
elements convert to the values `v`, that is the list `sorted` returns and the contents
`sort` writes back. -/
theorem sort_vector_permutation [DecidableEq α] (v : List α) (reverse : Bool)
    (items : List (PyItem α))
    (h : items.map (fun item => item.as_double) = v.map some) :
    (sort_vector v reverse).Perm v ∧
    (sort_vector v reverse).length = v.length ∧
    (∀ x, (sort_vector v reverse).count x = v.count x) ∧
    sorted_copy (py_list_object items : PyObject α β) reverse = .ok (sort_vector v reverse) ∧
    (sort_in_place (py_list_object items : PyObject α β) reverse).2 = none ∧
    (sort_in_place (py_list_object items : PyObject α β) reverse).1.items =
      (sort_vector v reverse).map py_float := by
  have hperm := sort_vector_perm_input v reverse
  have hvalues : to_numeric_vector items = .ok v := by
    simpa [to_numeric_vector] using to_numeric_vector_loop_ok items v 0 [] h
  have hlen : (sort_vector v reverse).length = items.length := by
    rw [sort_vector_length]
    simpa using (congrArg List.length h).symm
  have hwb := write_back_all_assigned (py_list_object items : PyObject α β)
    (sort_vector v reverse) hlen hlen rfl (by
      intro i x hi
      simp only [py_list_object] at hi ⊢
      simp [hi])
  have hseq : sort_in_place (py_list_object items : PyObject α β) reverse =
      sort_via_sequence (py_list_object items) reverse := by
    simp [sort_in_place, try_sort_via_buffer, py_list_object]
  have hsplit := sort_via_sequence_write_back (py_list_object items : PyObject α β) reverse v
    rfl rfl hvalues
  refine ⟨hperm, hperm.length_eq, fun x => hperm.count_eq x, ?_, ?_, ?_⟩
  · simp [sorted_copy, py_list, py_list_object, hvalues]
  · rw [hseq, hsplit.2, hwb]
  · rw [hseq, hsplit.1, hwb]

theorem sort_vector_permutation_witness :
    (sort_in_place (py_list_object [⟨"int", some 3⟩, ⟨"float", some 1⟩, ⟨"int", some 3⟩] :
      PyObject ℚ ℚ) false).1.items = [py_float 1, py_float 3, py_float 3] :=
  (sort_vector_permutation [(3 : ℚ), 1, 3] false
    [⟨"int", some 3⟩, ⟨"float", some 1⟩, ⟨"int", some 3⟩] rfl).2.2.2.2.2

/-- C4: for every `str` and every `bytes`, of any content, and either flag, `sort` fails
with a type error raised at dispatch (the same one whatever the characters or bytes are,
never the per-element coercion diagnostic) and the input is unchanged. -/
theorem sort_in_place_rejects_text [NatCast α] (reverse : Bool) :
    (∀ chars : List Char, sort_in_place (py_str chars : PyObject α β) reverse =
      (py_str chars, some (.type_error
        "array_sorter.sort expects a mutable sequence (for example, a list)"))) ∧
    (∀ data : List (Fin 256), sort_in_place (py_bytes data : PyObject α β) reverse =
      (py_bytes data, some (.type_error
        "array_sorter.sort requires a writable numeric buffer"))) := by
  constructor
  · intro chars
    simp [sort_in_place, try_sort_via_buffer, sort_via_sequence, is_text_type, py_str]
  · intro data
    simp [sort_in_place, try_sort_via_buffer, py_bytes]

/-- C5 (the code at textual inputs): `sorted` does not reject `bytes` or `str` before
coercion.  A `bytes` value is coerced byte by byte and a list is returned, the empty
`str` gives the empty list, and a non-empty `str` fails only inside the element-wise
coercion, with the diagnostic for its first character. -/
theorem sorted_copy_text_inputs :
    sorted_copy (py_bytes [49, 50] : PyObject ℚ ℚ) true = .ok [50, 49] ∧
    sorted_copy (py_str [] : PyObject ℚ ℚ) false = .ok [] ∧
    sorted_copy (py_str ['1', '2', '3', '4', '5'] : PyObject ℚ ℚ) false =
      .error (.type_error
        "array_sorter.sort expects numeric values; index 0 is of type 'str'") :=
  ⟨rfl, rfl, rfl⟩

/-- C6 (as stated, refuted): `__setitem__` of `first_slot_only` raises `ValueError` at
index 1, after index 0 has been assigned; `sort` fails with that error and leaves
`[1.0, 1.0]` where `[3.0, 1.0]` was. -/
theorem sort_in_place_partial_write :
    (sort_in_place first_slot_only false).2 =
      some (.error_already_set ⟨"ValueError", false, false⟩) ∧
    (sort_in_place first_slot_only false).1.items = [py_float 1, py_float 1] ∧
    first_slot_only.items = [py_float 3, py_float 1] := by
  refine ⟨by decide, by decide, by decide⟩

end Dispatch

section ImmutableSequence

variable {α β : Type} [LinearOrder α] [FloatCast α β]

/-- C7: a collection of numeric values without `__setitem__` (and without a sortable
buffer): `sort` fails with a type error and the collection untouched, while `sorted`
returns its values in ascending order, descending when `reverse` is set. -/
theorem sort_without_item_assignment (arr : PyObject α β) (reverse : Bool) (values : List α)
    (hiter : arr.iterable = true)
    (hnum : arr.items.map (fun item => item.as_double) = values.map some)
    (hset : arr.has_setitem = false) (hbuf : buffer_path_sorts arr = false) :
    (∃ what, sort_in_place arr reverse = (arr, some (.type_error what))) ∧
    (∃ out, sorted_copy arr reverse = .ok out ∧ out = sort_vector values reverse ∧
      out.Perm values ∧ (reverse = false → out.Sorted (· ≤ ·)) ∧
      (reverse = true → out.Sorted (· ≥ ·))) := by
  have hvalues : to_numeric_vector arr.items = .ok values := by
    simpa [to_numeric_vector] using to_numeric_vector_loop_ok arr.items values 0 [] hnum
  have hlen : (sort_vector values reverse).length = arr.items.length := by
    rw [sort_vector_length]
    simpa using (congrArg List.length hnum).symm
  refine ⟨?_, sort_vector values reverse, by simp [sorted_copy, py_list, hiter, hvalues], rfl,
    sort_vector_perm_input values reverse, fun hr => hr ▸ sort_vector_ascending values,
    fun hr => hr ▸ sort_vector_descending values⟩
  rcases sort_in_place_no_buffer arr reverse hbuf with hfail | hseq
  · exact hfail
  · rw [hseq]
    by_cases hdispatch : (!arr.sequence_check || is_text_type arr) = true
    · refine ⟨"array_sorter.sort expects a mutable sequence (for example, a list)", ?_⟩
      simp only [sort_via_sequence, hdispatch, if_true]
    · refine ⟨"sequence does not support item assignment", ?_⟩
      simp only [sort_via_sequence, hdispatch, hvalues, write_back_no_setitem arr _ hlen hset]
      simp

theorem sort_without_item_assignment_witness :
    (∃ what, sort_in_place (py_tuple_object [⟨"int", some 3⟩, ⟨"int", some 1⟩] : PyObject ℚ ℚ)
        true = (py_tuple_object [⟨"int", some 3⟩, ⟨"int", some 1⟩],
          some (.type_error what))) ∧
    (∃ out, sorted_copy (py_tuple_object [⟨"int", some 3⟩, ⟨"int", some 1⟩] : PyObject ℚ ℚ)
        true = .ok out ∧ out = sort_vector [3, 1] true ∧ out.Perm [3, 1] ∧
      (true = false → out.Sorted (· ≤ ·)) ∧ (true = true → out.Sorted (· ≥ ·))) :=
  sort_without_item_assignment (py_tuple_object [⟨"int", some 3⟩, ⟨"int", some 1⟩]) true
    [3, 1] rfl rfl rfl rfl

end ImmutableSequence

/-! ## The buffer path: classification -/

section Precision

variable {α β : Type}

/-- What `normalize_format` removes and what it leaves: the descriptor is a run of marker
characters followed by the result, and the result does not begin with a marker. -/
theorem normalize_format_strips (raw : String) :
    ∃ markers : List Char, raw.data = markers ++ (normalize_format (some raw)).data ∧
      (∀ c ∈ markers, c ∈ ['@', '<', '>', '!', '=']) ∧
      ∀ c rest, (normalize_format (some raw)).data = c :: rest →
        c ∉ ['@', '<', '>', '!', '='] := by
  have hmarker : ∀ c : Char, is_marker c = true ↔ c ∈ ['@', '<', '>', '!', '='] := by
    intro c
    simp [is_marker, or_assoc]
  refine ⟨raw.data.takeWhile is_marker, ?_, ?_, ?_⟩
  · simp [normalize_format]
  · intro c hc
    exact (hmarker c).mp (List.mem_takeWhile_imp hc)
  · intro c rest hdata hc
    have hhead := List.head?_dropWhile_not is_marker raw.data
    simp only [normalize_format] at hdata
    rw [hdata] at hhead
    simp only [List.head?_cons] at hhead
    rw [(hmarker c).mpr hc] at hhead
    cases hhead

theorem deduce_precision_float64_iff (view : Py_buffer α β) :
    deduce_precision view = .kFloat64 ↔
      view.itemsize = 8 ∧
        normalize_format view.format ∈ ["d", "f8", "float64", "double"] := by
  unfold deduce_precision
  simp only [List.mem_cons, List.mem_singleton, List.not_mem_nil, or_false]
  split_ifs with h1 h2
  · simp [h1]
  · simp [h1]
  · simp [h1]

theorem deduce_precision_float32_iff (view : Py_buffer α β) :
    deduce_precision view = .kFloat32 ↔
      view.itemsize = 4 ∧ normalize_format view.format ∈ ["f", "f4", "float32"] := by
  unfold deduce_precision
  simp only [List.mem_cons, List.mem_singleton, List.not_mem_nil, or_false]
  split_ifs with h1 h2
  · have h8 : view.itemsize ≠ 4 := by rw [h1.1]; decide
    simp [h8]
  · simp [h2]
  · simp [h2]

theorem deduce_precision_none_iff (view : Py_buffer α β) :
    deduce_precision view = .kNone ↔
      ¬ (view.itemsize = 8 ∧
          normalize_format view.format ∈ ["d", "f8", "float64", "double"]) ∧
      ¬ (view.itemsize = 4 ∧ normalize_format view.format ∈ ["f", "f4", "float32"]) := by
  rw [← deduce_precision_float64_iff, ← deduce_precision_float32_iff]
  cases deduce_precision view <;> simp

end Precision

section Buffer

variable {α β : Type} [LT α] [DecidableRel (fun a b : α => a < b)] [FloatCast α β]

/-- A one-dimensional view that `deduce_precision` does not recognize: the buffer path
returns false with the object untouched and `sort_in_place` continues on the sequence
path. -/
theorem unrecognized_view_falls_through (arr : PyObject α β) (view : Py_buffer α β)
    (reverse : Bool) (hbuf : arr.buffer = .view view) (hdim : view.ndim = 1)
    (hprec : deduce_precision view = .kNone) :
    try_sort_via_buffer arr reverse = .ok (false, arr) ∧
      sort_in_place arr reverse = sort_via_sequence arr reverse := by
  have h : try_sort_via_buffer arr reverse = .ok (false, arr) := by
    simp [try_sort_via_buffer, hbuf, hdim, hprec]
  exact ⟨h, by simp [sort_in_place, h]⟩

/-- C9: `deduce_precision` answers 64-bit float exactly when the item width is 8 and the
format with its leading markers `@ < > ! =` stripped is one of `d`, `f8`, `float64`,
`double`; 32-bit float exactly when the width is 4 and the stripped format is one of
`f`, `f4`, `float32`; and unrecognized in every other case, a missing format included.
For an unrecognized one-dimensional view the buffer path reports not-applicable without
failing and the input goes to the sequence path. -/
theorem deduce_precision_classification (view : Py_buffer α β) :
    (deduce_precision view = .kFloat64 ↔
      view.itemsize = 8 ∧
        normalize_format view.format ∈ ["d", "f8", "float64", "double"]) ∧
    (deduce_precision view = .kFloat32 ↔
      view.itemsize = 4 ∧ normalize_format view.format ∈ ["f", "f4", "float32"]) ∧
    (deduce_precision view = .kNone ↔
      ¬ (view.itemsize = 8 ∧
          normalize_format view.format ∈ ["d", "f8", "float64", "double"]) ∧
      ¬ (view.itemsize = 4 ∧ normalize_format view.format ∈ ["f", "f4", "float32"])) ∧
    (view.format = none → normalize_format view.format = "" ∧
      deduce_precision view = .kNone) ∧
    (∀ raw, view.format = some raw →
      ∃ markers : List Char, raw.data = markers ++ (normalize_format view.format).data ∧
        (∀ c ∈ markers, c ∈ ['@', '<', '>', '!', '=']) ∧
        ∀ c rest, (normalize_format view.format).data = c :: rest →
          c ∉ ['@', '<', '>', '!', '=']) ∧
    (∀ (arr : PyObject α β) (reverse : Bool), arr.buffer = .view view → view.ndim = 1 →
      deduce_precision view = .kNone →
      try_sort_via_buffer arr reverse = .ok (false, arr) ∧
        sort_in_place arr reverse = sort_via_sequence arr reverse) := by
  refine ⟨deduce_precision_float64_iff view, deduce_precision_float32_iff view,
    deduce_precision_none_iff view, ?_, ?_, ?_⟩
  · intro hnone
    refine ⟨by rw [hnone]; rfl, ?_⟩
    rw [deduce_precision_none_iff, hnone]
    constructor <;> (rintro ⟨_, hmem⟩; revert hmem; decide)
  · intro raw hraw
    rw [hraw]
    exact normalize_format_strips raw
  · intro arr reverse hbuf hdim hprec
    exact unrecognized_view_falls_through arr view reverse hbuf hdim hprec

theorem deduce_precision_classification_witness :
    try_sort_via_buffer int_array_example false = .ok (false, int_array_example) ∧
      sort_in_place int_array_example false = sort_via_sequence int_array_example false :=
  (deduce_precision_classification
      { buf := .raw [2, 0, 0, 0, 1, 0, 0, 0], len := 8, itemsize := 4, format := some "i",
        ndim := 1 }).2.2.2.2.2
    int_array_example false rfl rfl (by decide)

theorem to_size_t_of_range (n : Int) (h0 : 0 ≤ n) (h1 : n < 2 ^ 63) :
    to_size_t n = n.toNat := by
  unfold to_size_t
  rw [Int.emod_eq_of_lt h0 (by omega)]

end Buffer

/-! ## Inputs of length zero and one -/

section Trivial

variable {α β : Type} [LT α] [DecidableRel (fun a b : α => a < b)] [FloatCast α β]

/-- A Python list has no buffer protocol: `sort_in_place` is the sequence path. -/
theorem sort_in_place_list (items : List (PyItem α)) (reverse : Bool) :
    sort_in_place (py_list_object items : PyObject α β) reverse =
      sort_via_sequence (py_list_object items) reverse := by
  simp [sort_in_place, try_sort_via_buffer, py_list_object]

/-- C11: inputs of length zero or one are sorted without error and without change.
`sort_array` and `sort_vector` return `[]` for `[]` and `[x]` for `[x]`; `sort` on the
empty list and on a one-element list returns normally with the same value in the list
(a float element leaves the list identical; any other numeric element is written back
as the float of the same value); `sorted` returns `[]` and `[x]`. -/
theorem sort_short_inputs (reverse : Bool) :
    sort_array ([] : List α) = [] ∧ (∀ x : α, sort_array [x] = [x]) ∧
    sort_vector ([] : List α) reverse = [] ∧ (∀ x : α, sort_vector [x] reverse = [x]) ∧
    sort_in_place (py_list_object [] : PyObject α β) reverse = (py_list_object [], none) ∧
    (∀ x : α, sort_in_place (py_list_object [py_float x] : PyObject α β) reverse =
      (py_list_object [py_float x], none)) ∧
    (∀ (item : PyItem α) (x : α), item.as_double = some x →
      (sort_in_place (py_list_object [item] : PyObject α β) reverse).2 = none ∧
      (sort_in_place (py_list_object [item] : PyObject α β) reverse).1.items.map
        (fun e => e.as_double) = [item].map (fun e => e.as_double)) ∧
    sorted_copy (py_list_object [] : PyObject α β) reverse = .ok [] ∧
    (∀ (item : PyItem α) (x : α), item.as_double = some x →
      sorted_copy (py_list_object [item] : PyObject α β) reverse = .ok [x]) := by
  have hnil : sort_vector ([] : List α) reverse = [] := by
    cases reverse <;> simp [sort_vector, sort_array]
  have hone : ∀ x : α, sort_vector [x] reverse = [x] := by
    intro x
    cases reverse <;> simp [sort_vector, sort_array]
  have hitem : ∀ (item : PyItem α) (x : α), item.as_double = some x →
      sort_in_place (py_list_object [item] : PyObject α β) reverse =
        ({ (py_list_object [item] : PyObject α β) with items := [py_float x] }, none) := by
    intro item x hx
    rw [sort_in_place_list]
    simp [sort_via_sequence, is_text_type, py_list_object, to_numeric_vector,
      to_numeric_vector_loop, hx, hone, write_back, write_back_loop, PyObject.assign,
      PyObject.len_at_write_back]
  refine ⟨by simp [sort_array], fun x => by simp [sort_array], hnil, hone, ?_, ?_, ?_, ?_, ?_⟩
  · rw [sort_in_place_list]
    simp [sort_via_sequence, is_text_type, py_list_object, to_numeric_vector,
      to_numeric_vector_loop, hnil, write_back, write_back_loop,
      PyObject.len_at_write_back]
  · intro x
    rw [hitem (py_float x) x rfl]
    rfl
  · intro item x hx
    rw [hitem item x hx]
    simp [py_float, hx]
  · simp [sorted_copy, py_list, py_list_object, to_numeric_vector, to_numeric_vector_loop,
      hnil]
  · intro item x hx
    simp [sorted_copy, py_list, py_list_object, to_numeric_vector, to_numeric_vector_loop,
      hx, hone]

theorem sort_short_inputs_witness :
    (sort_in_place (py_list_object [⟨"int", some 42⟩] : PyObject ℚ ℚ) true).2 = none ∧
    (sort_in_place (py_list_object [⟨"int", some 42⟩] : PyObject ℚ ℚ) true).1.items.map
      (fun e => e.as_double) = [some 42] :=
  (sort_short_inputs true).2.2.2.2.2.2.1 ⟨"int", some 42⟩ 42 rfl

end Trivial

/-! ## The `try` block around `write_back` -/

section Caught

variable {α β : Type}

/-- The handler only touches what `__setitem__` raised: on every other outcome of
`write_back` the `try` block returns that outcome. -/
theorem write_back_caught_passes (seq : PyObject α β) (values : List α)
    (h : ∀ err, (write_back seq values).2 ≠ some (.error_already_set err)) :
    write_back_caught seq values = write_back seq values := by
  unfold write_back_caught
  rcases hwb : write_back seq values with ⟨a, _ | e⟩
  · rfl
  · cases e with
    | type_error what => rfl
    | runtime_error what => rfl
    | error_already_set error =>
      rw [hwb] at h
      exact absurd rfl (h error)

/-- What the handler makes of an exception raised by `__setitem__`. -/
theorem write_back_caught_error (seq : PyObject α β) (values : List α) (err : PythonError)
    (h : (write_back seq values).2 = some (.error_already_set err)) :
    write_back_caught seq values =
      ((write_back seq values).1,
        some (if err.matches_TypeError || err.matches_RuntimeError then
          .type_error "array_sorter.sort requires a sequence that supports item assignment"
        else .error_already_set err)) := by
  unfold write_back_caught
  rcases hwb : write_back seq values with ⟨a, _ | e⟩
  · rw [hwb] at h
    cases h
  · rw [hwb] at h
    cases h
    by_cases hm : (err.matches_TypeError || err.matches_RuntimeError) = true
    · simp [hm]
    · simp [hm]

/-- An exception of kind `error_already_set` leaves `write_back` only from the
assignment loop: some `__setitem__(k, v)` raised it. -/
theorem write_back_error_from_setitem (seq : PyObject α β) (values : List α)
    (err : PythonError) (h : (write_back seq values).2 = some (.error_already_set err)) :
    ∃ k v, values[k]? = some v ∧ seq.setitem_raises k v = some err := by
  by_cases hlen : values.length = seq.len_at_write_back
  · by_cases hset : seq.has_setitem = true
    · have hwb : write_back seq values = write_back_loop seq 0 values := by
        simp [write_back, hlen, hset]
      rw [hwb] at h
      simpa using write_back_loop_error_from_setitem values seq 0 err h
    · have hno : seq.has_setitem = false := by simpa using hset
      have hwb : write_back seq values =
          (seq, some (.type_error "sequence does not support item assignment")) := by
        simp [write_back, hlen, hno]
      rw [hwb] at h
      cases h
  · rw [write_back_length_changed seq values hlen] at h
    cases h

/-- A length mismatch goes through the `try` block as the runtime error it is, with the
sequence untouched. -/
theorem write_back_caught_length_changed (seq : PyObject α β) (values : List α)
    (h : values.length ≠ seq.len_at_write_back) :
    write_back_caught seq values =
      (seq, some (.runtime_error "sequence length changed while sorting")) := by
  have hwb := write_back_length_changed seq values h
  rw [write_back_caught_passes seq values (by rw [hwb]; intro err he; cases he), hwb]

end Caught

/-! ## Failures of the item assignment, and agreement of `sort` with `sorted` -/

/-- Past validation and coercion the sequence path is the `try` block applied to the
sorted values. -/
theorem sort_via_sequence_caught {α β : Type} [LT α] [DecidableRel (fun a b : α => a < b)]
    (arr : PyObject α β) (reverse : Bool) (values : List α)
    (hseq : arr.sequence_check = true) (htext : is_text_type arr = false)
    (hvalues : to_numeric_vector arr.items = .ok values) :
    sort_via_sequence arr reverse = write_back_caught arr (sort_vector values reverse) := by
  unfold sort_via_sequence write_back_caught
  simp only [hseq, htext, hvalues]
  rfl

section Assignment

variable {α β : Type} [LT α] [DecidableRel (fun a b : α => a < b)] [FloatCast α β]

/-- C13: a failure raised by `__setitem__` during the write-back of `sort` reaches the
caller as the single type error of bindings.cpp 172-173 when it matches `TypeError` or
`RuntimeError`, and unmodified when it is of any other kind. -/
theorem sort_in_place_assignment_failure (arr : PyObject α β) (reverse : Bool)
    (values : List α) (err : PythonError)
    (hfall : try_sort_via_buffer arr reverse = .ok (false, arr))
    (hseq : arr.sequence_check = true) (htext : is_text_type arr = false)
    (hvalues : to_numeric_vector arr.items = .ok values)
    (hraise : (write_back arr (sort_vector values reverse)).2 =
      some (.error_already_set err)) :
    (∃ k v, (sort_vector values reverse)[k]? = some v ∧
      arr.setitem_raises k v = some err) ∧
    (err.matches_TypeError = true ∨ err.matches_RuntimeError = true →
      (sort_in_place arr reverse).2 = some (.type_error
        "array_sorter.sort requires a sequence that supports item assignment")) ∧
    (err.matches_TypeError = false → err.matches_RuntimeError = false →
      (sort_in_place arr reverse).2 = some (.error_already_set err)) := by
  have hsip : sort_in_place arr reverse =
      write_back_caught arr (sort_vector values reverse) := by
    rw [← sort_via_sequence_caught arr reverse values hseq htext hvalues]
    simp [sort_in_place, hfall]
  have hcaught := write_back_caught_error arr (sort_vector values reverse) err hraise
  refine ⟨write_back_error_from_setitem arr _ err hraise, ?_, ?_⟩
  · intro hm
    rw [hsip, hcaught]
    rcases hm with hm | hm <;> simp [hm]
  · intro ht hr
    rw [hsip, hcaught]
    simp [ht, hr]

theorem sort_in_place_assignment_failure_witness :
    (sort_in_place int_array_example false).2 = some (.type_error
      "array_sorter.sort requires a sequence that supports item assignment") :=
  (sort_in_place_assignment_failure int_array_example false [2, 1]
    ⟨"TypeError", true, false⟩ rfl rfl rfl rfl (by decide)).2.1 (Or.inl rfl)

/-- For a Python list of numeric elements every assignment is carried out: `sort`
returns normally and the list holds the floats of the sorted values. -/
theorem sort_in_place_list_result (items : List (PyItem α)) (values : List α) (r : Bool)
    (hnum : items.map (fun item => item.as_double) = values.map some) :
    sort_in_place (py_list_object items : PyObject α β) r =
      ({ (py_list_object items : PyObject α β) with
          items := (sort_vector values r).map py_float }, none) := by
  have hvalues : to_numeric_vector items = .ok values := by
    simpa [to_numeric_vector] using to_numeric_vector_loop_ok items values 0 [] hnum
  have hlen : (sort_vector values r).length = items.length := by
    rw [sort_vector_length]
    simpa using (congrArg List.length hnum).symm
  have hwb := write_back_all_assigned (py_list_object items : PyObject α β)
    (sort_vector values r) hlen hlen rfl (by
      intro i x hi
      simp only [py_list_object] at hi ⊢
      simp [hi])
  rw [sort_in_place_list,
    sort_via_sequence_caught (py_list_object items) r values rfl rfl hvalues,
    write_back_caught_passes _ _ (by rw [hwb]; intro err he; cases he), hwb]

/-- C16: for a Python list of numeric elements and either flag, `sort` returns normally
and the contents it leaves are, element by element, the floats of the list that `sorted`
returns for the original contents; both are `sort_vector` of the coerced values. -/
theorem sort_agrees_with_sorted (items : List (PyItem α)) (values : List α) (r : Bool)
    (hnum : items.map (fun item => item.as_double) = values.map some) :
    ∃ out : List α,
      sorted_copy (py_list_object items : PyObject α β) r = .ok out ∧
      (sort_in_place (py_list_object items : PyObject α β) r).2 = none ∧
      (sort_in_place (py_list_object items : PyObject α β) r).1.items = out.map py_float ∧
      out = sort_vector values r := by
  have hvalues : to_numeric_vector items = .ok values := by
    simpa [to_numeric_vector] using to_numeric_vector_loop_ok items values 0 [] hnum
  refine ⟨sort_vector values r, ?_, ?_, ?_, rfl⟩
  · simp [sorted_copy, py_list, py_list_object, hvalues]
  · rw [sort_in_place_list_result items values r hnum]
  · rw [sort_in_place_list_result items values r hnum]

theorem sort_agrees_with_sorted_witness :
    ∃ out : List ℚ,
      sorted_copy (py_list_object [⟨"int", some 2⟩, ⟨"float", some 7⟩, ⟨"bool", some 1⟩] :
        PyObject ℚ ℚ) true = .ok out ∧
      (sort_in_place (py_list_object [⟨"int", some 2⟩, ⟨"float", some 7⟩, ⟨"bool", some 1⟩] :
        PyObject ℚ ℚ) true).2 = none ∧
      (sort_in_place (py_list_object [⟨"int", some 2⟩, ⟨"float", some 7⟩, ⟨"bool", some 1⟩] :
        PyObject ℚ ℚ) true).1.items = out.map py_float ∧
      out = sort_vector [2, 7, 1] true :=
  sort_agrees_with_sorted [⟨"int", some 2⟩, ⟨"float", some 7⟩, ⟨"bool", some 1⟩] [2, 7, 1]
    true rfl

/-- C14: a writable view with more than one dimension, whatever its format and item
width: the buffer path throws the type error of bindings.cpp 118, so `sort` fails with
it instead of going on to the sequence path, and the object is left as it was. -/
theorem sort_in_place_multi_dimensional (arr : PyObject α β) (view : Py_buffer α β)
    (reverse : Bool) (hbuf : arr.buffer = .view view) (hdim : 1 < view.ndim) :
    try_sort_via_buffer arr reverse =
      .error (.type_error "array_sorter.sort only supports one-dimensional buffers") ∧
    sort_in_place arr reverse =
      (arr, some (.type_error "array_sorter.sort only supports one-dimensional buffers")) := by
  have hne : view.ndim ≠ 1 := by omega
  have htry : try_sort_via_buffer arr reverse =
      .error (.type_error "array_sorter.sort only supports one-dimensional buffers") := by
    simp [try_sort_via_buffer, hbuf, hne]
  exact ⟨htry, by simp [sort_in_place, htry]⟩

end Assignment

theorem sort_in_place_multi_dimensional_witness :
    sort_in_place matrix_example true =
      (matrix_example,
        some (.type_error "array_sorter.sort only supports one-dimensional buffers")) :=
  (sort_in_place_multi_dimensional matrix_example
    { buf := .doubles [4, 3, 2, 1], len := 32, itemsize := 8, format := some "d",
      ndim := 2 } true rfl (by decide)).2

/-! ## The element count and the 32-bit copy -/

section Count

variable {α β : Type}

/-- C17: when control reaches the division of bindings.cpp 126, `deduce_precision` has
answered `kFloat64` or `kFloat32`; the item size is then 8 or 4, it is the width of the
elements the copy addresses, the divisor is not zero, and for a view with `len >= 0` the
`count` elements read and written take no more than `len` bytes. -/
theorem element_count_within_view (view : Py_buffer α β)
    (hreach : deduce_precision view ≠ .kNone) :
    (deduce_precision view = .kFloat64 ∨ deduce_precision view = .kFloat32) ∧
    (deduce_precision view = .kFloat64 → view.itemsize = 8) ∧
    (deduce_precision view = .kFloat32 → view.itemsize = 4) ∧
    to_size_t view.itemsize ≠ 0 ∧
    to_size_t view.itemsize = copy_width (deduce_precision view) ∧
    (0 ≤ view.len →
      ((element_count view * to_size_t view.itemsize : Nat) : Int) ≤ view.len ∧
      ((element_count view * copy_width (deduce_precision view) : Nat) : Int) ≤
        view.len) := by
  have h64 : deduce_precision view = .kFloat64 → view.itemsize = 8 :=
    fun h => ((deduce_precision_float64_iff view).mp h).1
  have h32 : deduce_precision view = .kFloat32 → view.itemsize = 4 :=
    fun h => ((deduce_precision_float32_iff view).mp h).1
  have hcases : deduce_precision view = .kFloat64 ∨ deduce_precision view = .kFloat32 := by
    cases hp : deduce_precision view with
    | kNone => exact absurd hp hreach
    | kFloat32 => exact Or.inr rfl
    | kFloat64 => exact Or.inl rfl
  have hwidth : to_size_t view.itemsize = copy_width (deduce_precision view) := by
    rcases hcases with hp | hp
    · rw [hp, h64 hp]
      decide
    · rw [hp, h32 hp]
      decide
  have hpos : to_size_t view.itemsize ≠ 0 := by
    rw [hwidth]
    rcases hcases with hp | hp <;> rw [hp] <;> decide
  refine ⟨hcases, h64, h32, hpos, hwidth, ?_⟩
  intro hlen
  have hmod : ((to_size_t view.len : Nat) : Int) ≤ view.len := by
    unfold to_size_t
    omega
  have hdiv : element_count view * to_size_t view.itemsize ≤ to_size_t view.len :=
    Nat.div_mul_le_self _ _
  have hbound : ((element_count view * to_size_t view.itemsize : Nat) : Int) ≤ view.len :=
    le_trans (by exact_mod_cast hdiv) hmod
  exact ⟨hbound, by rw [← hwidth]; exact hbound⟩

end Count

theorem element_count_within_view_witness :
    ((element_count ragged_view * copy_width (deduce_precision ragged_view) : Nat) : Int) ≤
      ragged_view.len :=
  ((element_count_within_view ragged_view (by decide)).2.2.2.2.2 (by decide)).2

section Float32

variable {α β : Type} [LT α] [DecidableRel (fun a b : α => a < b)] [FloatCast α β]

/-- The 32-bit path of `sort_in_place`: for a one-dimensional view classified as 32-bit
float over a region of `n` floats (`len = 4 * n`), the region afterwards holds the
narrowed elements of `sort_vector` applied to the widened original elements. -/
theorem sort_in_place_float32_buffer (arr : PyObject α β) (view : Py_buffer α β)
    (cells : List β) (reverse : Bool) (hbuf : arr.buffer = .view view)
    (hdim : view.ndim = 1) (hprec : deduce_precision view = .kFloat32)
    (hmem : view.buf = .floats cells) (hlen : view.len = 4 * cells.length)
    (hrange : view.len < 2 ^ 63) :
    (sort_in_place arr reverse).2 = none ∧
    (sort_in_place arr reverse).1.buffer =
      .view
        { view with
          buf := .floats ((sort_vector (cells.map (FloatCast.to_double : β → α))
            reverse).map FloatCast.to_float) } := by
  have hsize : view.itemsize = 4 := ((deduce_precision_float32_iff view).mp hprec).1
  have hcount : element_count view = cells.length := by
    unfold element_count
    rw [hsize, to_size_t_of_range view.len (by omega) hrange, hlen]
    have h4 : to_size_t 4 = 4 := by decide
    rw [h4]
    have : ((4 : Int) * (cells.length : Int)).toNat = 4 * cells.length := by omega
    rw [this]
    omega
  have hsorted := sort_vector_length (cells.map (FloatCast.to_double : β → α)) reverse
  have htake : ((sort_vector (cells.map (FloatCast.to_double : β → α)) reverse).map
      (FloatCast.to_float : α → β)).take cells.length =
        (sort_vector (cells.map (FloatCast.to_double : β → α)) reverse).map
          FloatCast.to_float := by
    apply List.take_of_length_le
    simp [hsorted]
  constructor <;>
    simp [sort_in_place, try_sort_via_buffer, hbuf, hdim, hprec, hcount, hmem,
      Memory.read_floats, Memory.write_floats, htake]

/-- If narrowing undoes widening, the elements the 32-bit path writes are a permutation
of the elements it read. -/
theorem float32_round_trip_perm (cells : List β) (reverse : Bool)
    (hround : ∀ x : β, FloatCast.to_float (FloatCast.to_double x : α) = x) :
    ((sort_vector (cells.map (FloatCast.to_double : β → α)) reverse).map
      (FloatCast.to_float : α → β)).Perm cells := by
  have hperm := (sort_vector_perm_input (cells.map (FloatCast.to_double : β → α))
    reverse).map (FloatCast.to_float : α → β)
  have hmap : (cells.map (FloatCast.to_double : β → α)).map (FloatCast.to_float : α → β) =
      cells := by
    rw [List.map_map]
    conv_rhs => rw [← List.map_id cells]
    exact List.map_congr_left (fun x _ => hround x)
  rwa [hmap] at hperm

end Float32

/-! ## The buffer path: acquisition and the copy -/

section Float64

variable {α β : Type} [LT α] [DecidableRel (fun a b : α => a < b)] [FloatCast α β]

/-- When no writable view can be acquired from an object with the buffer protocol, `sort`
fails with the type error of bindings.cpp 104 and the object is left as it was. -/
theorem sort_in_place_view_refused (arr : PyObject α β) (reverse : Bool)
    (hbuf : arr.buffer = .unavailable) :
    sort_in_place arr reverse =
      (arr, some (.type_error "array_sorter.sort requires a writable numeric buffer")) := by
  simp [sort_in_place, try_sort_via_buffer, hbuf]

/-- C8 (as stated, refuted): a `memoryview` over `array.array('d', [2.0, 1.0])` is a
writable one-dimensional buffer of two doubles, yet `sort` does not sort it: the view is
requested with `PyBUF_WRITABLE | PyBUF_FORMAT`, the memoryview refuses that request, and
the call ends with the type error of bindings.cpp 104, the two values where they were. -/
theorem sort_in_place_memoryview_refused :
    (py_memoryview_double [2, 1] : PyObject ℚ ℚ).buffer = .unavailable ∧
    sort_in_place (py_memoryview_double [2, 1] : PyObject ℚ ℚ) false =
      (py_memoryview_double [2, 1],
        some (.type_error "array_sorter.sort requires a writable numeric buffer")) ∧
    (sort_in_place (py_memoryview_double [2, 1] : PyObject ℚ ℚ) false).1.items =
      [py_float 2, py_float 1] :=
  ⟨rfl, rfl, rfl⟩

/-- C8 (amended): when the request for a writable view with format succeeds and the view
is one-dimensional, classified as 64-bit float, over a region of `n` doubles
(`len = 8 * n`), `sort` returns normally and the same region then holds exactly the `n`
values `sort_vector` makes of the original contents; indexing reads the new storage and
nothing else of the object changes.  When the exporter refuses that request, `sort` fails
with the type error of bindings.cpp 104 and the object is left as it was. -/
theorem sort_in_place_float64_buffer (arr : PyObject α β) (view : Py_buffer α β)
    (cells : List α) (reverse : Bool) (hbuf : arr.buffer = .view view)
    (hdim : view.ndim = 1) (hprec : deduce_precision view = .kFloat64)
    (hmem : view.buf = .doubles cells) (hlen : view.len = 8 * cells.length)
    (hrange : view.len < 2 ^ 63) :
    sort_in_place arr reverse =
      ({ arr with
          buffer := .view { view with buf := .doubles (sort_vector cells reverse) },
          items := arr.items_over (.doubles (sort_vector cells reverse)) }, none) ∧
    (sort_vector cells reverse).length = cells.length ∧
    (∀ refused : PyObject α β, refused.buffer = .unavailable →
      sort_in_place refused reverse =
        (refused,
          some (.type_error "array_sorter.sort requires a writable numeric buffer"))) := by
  have hsize : view.itemsize = 8 := ((deduce_precision_float64_iff view).mp hprec).1
  have hcount : element_count view = cells.length := by
    unfold element_count
    rw [hsize, to_size_t_of_range view.len (by omega) hrange, hlen]
    have h8 : to_size_t 8 = 8 := by decide
    rw [h8]
    have : ((8 : Int) * (cells.length : Int)).toNat = 8 * cells.length := by omega
    rw [this]
    omega
  have hsorted := sort_vector_length cells reverse
  refine ⟨?_, hsorted, fun refused h => sort_in_place_view_refused refused reverse h⟩
  have htake : (sort_vector cells reverse).take cells.length = sort_vector cells reverse := by
    rw [← hsorted]
    exact List.take_length _
  have htry : try_sort_via_buffer arr reverse =
      .ok (true, { arr with
        buffer := .view { view with buf := .doubles (sort_vector cells reverse) },
        items := arr.items_over (.doubles (sort_vector cells reverse)) }) := by
    simp [try_sort_via_buffer, hbuf, hdim, hprec, hcount, hmem, Memory.read_doubles,
      Memory.write_doubles, htake]
  simp [sort_in_place, htry]

theorem sort_in_place_float64_buffer_witness :
    ((sort_in_place (py_array_double [5, 4, 3, 2, 1] : PyObject ℚ ℚ) false).2 = none ∧
      (sort_in_place (py_array_double [5, 4, 3, 2, 1] : PyObject ℚ ℚ) false).1.buffer =
        .view
          { buf := .doubles [1, 2, 3, 4, 5], len := 40, itemsize := 8, format := some "d",
            ndim := 1 } ∧
      (sort_in_place (py_array_double [5, 4, 3, 2, 1] : PyObject ℚ ℚ) false).1.items =
        [py_float 1, py_float 2, py_float 3, py_float 4, py_float 5]) ∧
    ((sort_in_place (py_array_double [5, 4, 3, 2, 1] : PyObject ℚ ℚ) true).2 = none ∧
      (sort_in_place (py_array_double [5, 4, 3, 2, 1] : PyObject ℚ ℚ) true).1.buffer =
        .view
          { buf := .doubles [5, 4, 3, 2, 1], len := 40, itemsize := 8, format := some "d",
            ndim := 1 } ∧
      (sort_in_place (py_array_double [5, 4, 3, 2, 1] : PyObject ℚ ℚ) true).1.items =
        [py_float 5, py_float 4, py_float 3, py_float 2, py_float 1]) := by
  have hasc := (sort_in_place_float64_buffer (py_array_double [5, 4, 3, 2, 1] : PyObject ℚ ℚ)
      { buf := .doubles [5, 4, 3, 2, 1], len := 40, itemsize := 8, format := some "d",
        ndim := 1 } [5, 4, 3, 2, 1] false rfl rfl (by decide) rfl (by decide) (by decide)).1
  have hdesc := (sort_in_place_float64_buffer (py_array_double [5, 4, 3, 2, 1] : PyObject ℚ ℚ)
      { buf := .doubles [5, 4, 3, 2, 1], len := 40, itemsize := 8, format := some "d",
        ndim := 1 } [5, 4, 3, 2, 1] true rfl rfl (by decide) rfl (by decide) (by decide)).1
  rw [hasc, hdesc]
  exact ⟨⟨rfl, rfl, rfl⟩, ⟨rfl, rfl, rfl⟩⟩

end Float64

/-! ## Where a failing `sort` leaves its input -/

/-- The array `to_numeric_vector` returns has the length of the sequence it read. -/
theorem to_numeric_vector_loop_length {α : Type} (seq : List (PyItem α)) :
    ∀ (i : Nat) (values out : List α),
      to_numeric_vector_loop i values seq = .ok out → out.length = values.length + seq.length := by
  induction seq with
  | nil =>
    intro i values out h
    simp only [to_numeric_vector_loop] at h
    cases h
    simp
  | cons item rest ih =>
    intro i values out h
    cases hx : item.as_double with
    | none => simp [to_numeric_vector_loop, hx] at h
    | some x =>
      simp only [to_numeric_vector_loop, hx] at h
      have := ih (i + 1) (values ++ [x]) out h
      simp only [List.length_append, List.length_cons, List.length_nil] at this ⊢
      omega

theorem to_numeric_vector_length {α : Type} (seq : List (PyItem α)) (values : List α)
    (h : to_numeric_vector seq = .ok values) : values.length = seq.length := by
  simpa using to_numeric_vector_loop_length seq 0 [] values h

section Failure

variable {α β : Type} [LT α] [DecidableRel (fun a b : α => a < b)] [FloatCast α β]

/-- Once the buffer path has declined and validation and coercion have passed, `sort` is
the `try` block applied to the sequence and the sorted values. -/
theorem sort_in_place_at_write_back (arr : PyObject α β) (reverse : Bool) (values : List α)
    (hfall : try_sort_via_buffer arr reverse = .ok (false, arr))
    (hseq : arr.sequence_check = true) (htext : is_text_type arr = false)
    (hvalues : to_numeric_vector arr.items = .ok values) :
    sort_in_place arr reverse = write_back_caught arr (sort_vector values reverse) := by
  rw [← sort_via_sequence_caught arr reverse values hseq htext hvalues]
  simp [sort_in_place, hfall]

/-- C12: when the length the sequence reports at write-back time differs from the length
of the freshly sorted array, `sort` ends with the runtime error of bindings.cpp 51; the
handler of `sort_in_place` does not turn it into a type error, and no element has been
assigned: the sequence is left as it was, neither truncated nor overflowed. -/
theorem sort_in_place_length_changed (arr : PyObject α β) (reverse : Bool) (values : List α)
    (hfall : try_sort_via_buffer arr reverse = .ok (false, arr))
    (hseq : arr.sequence_check = true) (htext : is_text_type arr = false)
    (hvalues : to_numeric_vector arr.items = .ok values)
    (hlive : arr.len_at_write_back ≠ (sort_vector values reverse).length) :
    sort_in_place arr reverse =
      (arr, some (.runtime_error "sequence length changed while sorting")) ∧
    (∀ what, (sort_in_place arr reverse).2 ≠ some (.type_error what)) ∧
    (sort_in_place arr reverse).1.items = arr.items := by
  have h : sort_in_place arr reverse =
      (arr, some (.runtime_error "sequence length changed while sorting")) := by
    rw [sort_in_place_at_write_back arr reverse values hfall hseq htext hvalues]
    exact write_back_caught_length_changed arr _ (fun he => hlive he.symm)
  refine ⟨h, ?_, by rw [h]⟩
  intro what he
  rw [h] at he
  cases he

theorem sort_in_place_length_changed_witness :
    sort_in_place grown_list_example true =
      (grown_list_example, some (.runtime_error "sequence length changed while sorting")) :=
  (sort_in_place_length_changed grown_list_example true [3, 1] rfl rfl rfl rfl
    (by decide)).1

end Failure

/-- The assignment of `write_back` that raises is the first one whose `__setitem__`
raises: the state and the exception `write_back` ends with. -/
theorem write_back_raises_at {α β : Type} (seq : PyObject α β) (values : List α)
    (hlive : values.length = seq.len_at_write_back)
    (hlen : values.length = seq.items.length) (hset : seq.has_setitem = true)
    (k : Nat) (v : α) (err : PythonError)
    (hbefore : ∀ j w, j < k → values[j]? = some w → seq.setitem_raises j w = none)
    (hk : values[k]? = some v) (herr : seq.setitem_raises k v = some err) :
    write_back seq values =
      ({ seq with
          items := seq.raise_leaves k v ((values.take k).map py_float ++ seq.items.drop k) },
        some (.error_already_set err)) := by
  have hklt : k < values.length := by
    by_contra hge
    rw [List.getElem?_eq_none (by omega)] at hk
    cases hk
  obtain ⟨k2, hk2, hbefore2, hend⟩ := write_back_spec seq values hlive hlen hset
  have hkk : k2 = k := by
    rcases Nat.lt_trichotomy k2 k with hlt | heq | hgt
    · rcases hend with ⟨hall, _⟩ | ⟨w, e, hw, he, _⟩
      · omega
      · rw [hbefore k2 w hlt hw] at he
        cases he
    · exact heq
    · rw [hbefore2 k v hgt hk] at herr
      cases herr
  subst hkk
  rcases hend with ⟨hall, _⟩ | ⟨w, e, hw, he, hstate⟩
  · omega
  · rw [hk] at hw
    cases hw
    rw [herr] at he
    cases he
    exact hstate

section Stages

variable {α β : Type} [LT α] [DecidableRel (fun a b : α => a < b)] [FloatCast α β]

/-- C6 (amended): where a failing `sort` leaves its input, stage by stage.  A failure in
the buffer path (no writable view, more than one dimension), at dispatch validation,
during numeric coercion, at the length check or at the check for `__setitem__` comes
before any write: the input is left exactly as it was.  A failure raised by the item
assignment at index `k` comes after the assignments at `0, .., k-1` were carried out and
nothing rolls them back: the first `k` elements hold the first `k` sorted values, the
elements from `k` on are the old ones, and on top of that stands whatever the raising
assignment itself did. -/
theorem sort_in_place_failure_state (arr : PyObject α β) (reverse : Bool) :
    (∀ e, try_sort_via_buffer arr reverse = .error e →
      sort_in_place arr reverse = (arr, some e)) ∧
    (try_sort_via_buffer arr reverse = .ok (false, arr) →
      ((arr.sequence_check = false ∨ is_text_type arr = true) →
        sort_in_place arr reverse = (arr, some (.type_error
          "array_sorter.sort expects a mutable sequence (for example, a list)"))) ∧
      (arr.sequence_check = true → is_text_type arr = false →
        (∀ e, to_numeric_vector arr.items = .error e →
          sort_in_place arr reverse = (arr, some e)) ∧
        (∀ values, to_numeric_vector arr.items = .ok values →
          (arr.len_at_write_back ≠ values.length →
            sort_in_place arr reverse =
              (arr, some (.runtime_error "sequence length changed while sorting"))) ∧
          (arr.len_at_write_back = values.length → arr.has_setitem = false →
            sort_in_place arr reverse =
              (arr, some (.type_error "sequence does not support item assignment"))) ∧
          (arr.len_at_write_back = values.length → arr.has_setitem = true →
            ∀ k v err,
              (∀ j w, j < k → (sort_vector values reverse)[j]? = some w →
                arr.setitem_raises j w = none) →
              (sort_vector values reverse)[k]? = some v →
              arr.setitem_raises k v = some err →
              sort_in_place arr reverse =
                ({ arr with
                    items := arr.raise_leaves k v
                      (((sort_vector values reverse).take k).map py_float ++
                        arr.items.drop k) },
                  some (if err.matches_TypeError || err.matches_RuntimeError then
                    .type_error
                      "array_sorter.sort requires a sequence that supports item assignment"
                  else .error_already_set err)))))) := by
  refine ⟨fun e he => by simp [sort_in_place, he], fun hfall => ⟨?_, ?_⟩⟩
  · intro hbad
    have hsip : sort_in_place arr reverse = sort_via_sequence arr reverse := by
      simp [sort_in_place, hfall]
    rw [hsip]
    rcases hbad with hs | ht
    · simp [sort_via_sequence, hs]
    · simp [sort_via_sequence, ht]
  · intro hseq htext
    refine ⟨?_, ?_⟩
    · intro e he
      have hsip : sort_in_place arr reverse = sort_via_sequence arr reverse := by
        simp [sort_in_place, hfall]
      rw [hsip]
      simp [sort_via_sequence, hseq, htext, he]
    · intro values hvalues
      have hsip := sort_in_place_at_write_back arr reverse values hfall hseq htext hvalues
      have hlen : (sort_vector values reverse).length = arr.items.length := by
        rw [sort_vector_length, to_numeric_vector_length arr.items values hvalues]
      have hsorted := sort_vector_length values reverse
      refine ⟨?_, ?_, ?_⟩
      · intro hne
        rw [hsip]
        exact write_back_caught_length_changed arr _ (by rw [hsorted]; exact fun h => hne h.symm)
      · intro _ hset
        have hwb := write_back_no_setitem arr (sort_vector values reverse) hlen hset
        rw [hsip, write_back_caught_passes arr _ (by rw [hwb]; intro err he; cases he), hwb]
      · intro hlive hset k v err hbefore hk herr
        have hwb := write_back_raises_at arr (sort_vector values reverse)
          (by rw [hsorted, hlive]) hlen hset k v err hbefore hk herr
        rw [hsip, write_back_caught_error arr _ err (by rw [hwb]), hwb]

theorem sort_in_place_failure_state_witness :
    sort_in_place store_then_raise_example false =
      ({ store_then_raise_example with items := [py_float 1, py_float 1] },
        some (.error_already_set ⟨"ValueError", false, false⟩)) :=
  ((((sort_in_place_failure_state store_then_raise_example false).2 rfl).2 rfl rfl).2
    [3, 1] rfl).2.2 rfl rfl 0 1 ⟨"ValueError", false, false⟩
    (fun j _ hj => absurd hj (Nat.not_lt_zero j)) rfl rfl

end Stages

end ArraySorter
